import Mathlib

/-!
Verification of the component/ledger update model of `updater/components.py`.

The development shallowly embeds the module's pure core: version parsing and
comparison (delegated in the source to the external `packaging` library),
the rex-style regex admission filter, `Component.check`,
`Component.newer_version_exists`, `Component.count_occurence`,
`Component.replace`, `Component.update_files`, `Config.update_status`,
`Component.to_dict` and the per-component reconstruction performed by
`Config.read_from_yaml`.  File I/O is modelled by an explicit association
list from path to content; the external version fetcher is modelled by
passing the list of tags it would return and recording whether the
non-frozen branch (the only branch that calls it) was taken.
-/

namespace Updater

/-! ### Version comparator

Modelled from the spec: the source delegates to the external
`packaging.version.parse`.  The modelled subset: a string made of
dot-separated decimal segments parses to a release version compared
segment-wise with trailing zeros ignored; any other string falls back to a
deterministic total "legacy" order that sorts below every release version
(matching `LegacyVersion`'s comparison key being smaller than any
release's).  The legacy-versus-legacy order is implementation-defined per
the spec and is modelled as lexicographic order on character codes. -/

inductive PVersion where
  | legacy (s : String)
  | release (segs : List Nat)
deriving DecidableEq, Repr

/-- Strict lexicographic order on lists of naturals (Python tuple `<`). -/
def listLtNat : List Nat → List Nat → Bool
  | [], [] => false
  | [], _ :: _ => true
  | _ :: _, [] => false
  | a :: as, b :: bs => decide (a < b) || (decide (a = b) && listLtNat as bs)

/-- Drop trailing zero segments, as the release comparison key does. -/
def stripZeros (l : List Nat) : List Nat :=
  (l.reverse.dropWhile (fun x => x == 0)).reverse

/-- Strict order on parsed versions (`packaging`'s `<` on comparison keys). -/
def pvLt : PVersion → PVersion → Bool
  | .legacy a, .legacy b =>
      listLtNat (a.data.map Char.toNat) (b.data.map Char.toNat)
  | .legacy _, .release _ => true
  | .release _, .legacy _ => false
  | .release a, .release b => listLtNat (stripZeros a) (stripZeros b)

/-- Split a character list at every dot (so an empty input yields one
empty part, as Python's `"".split` on a separator does). -/
def splitOnDot (acc : List Char) : List Char → List (List Char)
  | [] => [acc.reverse]
  | c :: cs =>
      if c == '.' then acc.reverse :: splitOnDot [] cs
      else splitOnDot (c :: acc) cs

def isDigits (l : List Char) : Bool :=
  !l.isEmpty && l.all Char.isDigit

def digitsToNat (l : List Char) : Nat :=
  l.foldl (fun n c => n * 10 + (c.toNat - 48)) 0

/-- `packaging.version.parse`, restricted to the modelled subset. -/
def parse (s : String) : PVersion :=
  let parts := splitOnDot [] s.data
  if parts.all isDigits then .release (parts.map digitsToNat) else .legacy s

/-- `str()` of a parsed version: releases render their segments joined by
dots, legacy versions render their original string. -/
def pvStr : PVersion → String
  | .legacy s => s
  | .release segs => String.intercalate "." (segs.map toString)

/-- Python's `max` over a list: first maximal element, `none` on `[]`
(where CPython raises `ValueError`). -/
def pyMax : List PVersion → Option PVersion
  | [] => none
  | x :: xs => some (xs.foldl (fun b y => if pvLt b y then y else b) x)

/-! ### The rex admission filter

The source admits a candidate via `tag == rex(self.filter)`, delegating to
the external `rex` library: the pattern string `/body/` is compiled and
matched with `re.search` semantics (a match anywhere in the tag admits it).
The modelled pattern subset: literal characters (alphanumerics and `-`,
`_`, `=`, `:`), `\c` escapes, `.`, and `*` applied to a single-character
atom; patterns outside the subset fail to parse and admit nothing. -/

inductive RChar where
  | any
  | lit (c : Char)
deriving DecidableEq, Repr

inductive RTok where
  | one (c : RChar)
  | star (c : RChar)
deriving DecidableEq, Repr

def rcharMatch : RChar → Char → Bool
  | .any, _ => true
  | .lit c, d => c == d

def isPlainChar (c : Char) : Bool :=
  c.isAlphanum || c == '-' || c == '_' || c == '=' || c == ':' || c == ' '

/-- Parse the body of a rex pattern into tokens (modelled subset). -/
def parseRexBody : List Char → Option (List RTok)
  | [] => some []
  | '*' :: _ => none
  | '\\' :: [] => none
  | '\\' :: c :: '*' :: rest => (parseRexBody rest).map (RTok.star (.lit c) :: ·)
  | '\\' :: c :: rest => (parseRexBody rest).map (RTok.one (.lit c) :: ·)
  | '.' :: '*' :: rest => (parseRexBody rest).map (RTok.star .any :: ·)
  | '.' :: rest => (parseRexBody rest).map (RTok.one .any :: ·)
  | c :: '*' :: rest =>
      if isPlainChar c then (parseRexBody rest).map (RTok.star (.lit c) :: ·)
      else none
  | c :: rest =>
      if isPlainChar c then (parseRexBody rest).map (RTok.one (.lit c) :: ·)
      else none

/-- Strip the `/` delimiters of a rex pattern and parse the body. -/
def parseRexPattern (p : String) : Option (List RTok) :=
  match p.data with
  | '/' :: rest =>
      match rest.reverse with
      | '/' :: mid => parseRexBody mid.reverse
      | _ => none
  | _ => none

/-- Backtracking matcher for the starred-atom subset: does some prefix of
the characters match the token list (as `re` matches at a fixed
position)?  The first argument is recursion fuel, a structural-recursion
artifact: every call strictly shrinks the pair (characters, tokens)
lexicographically, so the fuel `matchHere` supplies is never exhausted. -/
def matchHereF : Nat → List RTok → List Char → Bool
  | 0, _, _ => false
  | _ + 1, [], _ => true
  | _ + 1, .one _ :: _, [] => false
  | fuel + 1, .one rc :: rest, c :: cs => rcharMatch rc c && matchHereF fuel rest cs
  | fuel + 1, .star rc :: rest, cs =>
      matchHereF fuel rest cs ||
        (match cs with
          | [] => false
          | c :: cs' => rcharMatch rc c && matchHereF fuel (.star rc :: rest) cs')

def matchHere (r : List RTok) (cs : List Char) : Bool :=
  matchHereF ((cs.length + 1) * (r.length + 1) + 1) r cs

/-- `re.search`: the pattern matches starting at some position. -/
def searchFrom (r : List RTok) : List Char → Bool
  | [] => matchHere r []
  | c :: cs => matchHere r (c :: cs) || searchFrom r cs

/-- The source's admission test `tag == rex(filter)`:
search semantics over the parsed pattern. -/
def rexMatches (pat tag : String) : Bool :=
  match parseRexPattern pat with
  | some r => searchFrom r tag.data
  | none => false

/-- Does the whole character list match the token list?  Fuelled like
`matchHereF`, with the fuel never exhausted at the bound `matchAll`
supplies. -/
def matchAllF : Nat → List RTok → List Char → Bool
  | 0, _, _ => false
  | _ + 1, [], [] => true
  | _ + 1, [], _ :: _ => false
  | _ + 1, .one _ :: _, [] => false
  | fuel + 1, .one rc :: rest, c :: cs => rcharMatch rc c && matchAllF fuel rest cs
  | fuel + 1, .star rc :: rest, cs =>
      matchAllF fuel rest cs ||
        (match cs with
          | [] => false
          | c :: cs' => rcharMatch rc c && matchAllF fuel (.star rc :: rest) cs')

def matchAll (r : List RTok) (cs : List Char) : Bool :=
  matchAllF ((cs.length + 1) * (r.length + 1) + 1) r cs

/-- Modelled from the spec: the spec's admission rule requires the raw tag
string "to satisfy the filter pattern as a full match"; this definition
follows those words (the source instead delegates to the rex library's
search), for comparison against `rexMatches`. -/
def specFullMatch (pat tag : String) : Bool :=
  match parseRexPattern pat with
  | some r => matchAll r tag.data
  | none => false

/-! ### The Component data model -/

/-- The two instantiable variants (`DockerImageComponent`,
`PypiComponent`); their `__init__` sets `component_type` to the matching
discriminator string, so the variant and the string are modelled by one
tag. -/
inductive CType where
  | dockerImage
  | pypi
deriving DecidableEq, Repr

def ctypeStr : CType → String
  | .dockerImage => "docker-image"
  | .pypi => "pypi"

/-- `Component`'s attributes.  `pre` embeds the source's prefix attribute
(the Python name is a Lean keyword); `repo_name` is `none` where the
Python attribute is `None` or absent (PypiComponent). -/
structure Component where
  component_type : CType
  component_name : String
  current_version_tag : String
  current_version : PVersion
  version_tags : List String
  next_version : PVersion
  next_version_tag : String
  pre : Option String
  filter : String
  files : Option (List String)
  exclude_versions : List String
  repo_name : Option String
deriving DecidableEq, Repr

/-- `Component.LATEST_TAGS`. -/
def LATEST_TAGS : List String := ["latest"]

/-- `Component.FILTER_DEFAULT`. -/
def FILTER_DEFAULT : String := "/.*/"

/-- `Component.__init__` (plus the variant constructor's extra fields). -/
def component_init (ctype : CType) (component_name current_version_tag : String)
    (repo_name : Option String) : Component :=
  { component_type := ctype
    component_name := component_name
    current_version_tag := current_version_tag
    current_version := parse current_version_tag
    version_tags := []
    next_version := parse current_version_tag
    next_version_tag := current_version_tag
    pre := none
    filter := FILTER_DEFAULT
    files := none
    exclude_versions := []
    repo_name := repo_name }

/-- `Component.newer_version_exists`. -/
def newer_version_exists (c : Component) : Bool :=
  if LATEST_TAGS.contains c.current_version_tag then false
  else pvLt c.current_version c.next_version

/-- The candidates surviving the list-comprehension guard of
`Component.check`: filter-pattern search succeeds and the tag is not in
`exclude_versions`. -/
def admitted (c : Component) (tags : List String) : List String :=
  tags.filter (fun tag => rexMatches c.filter tag && !(c.exclude_versions.contains tag))

/-- Outcome of `Component.check`: the component state after the call, the
returned boolean (`none` models the `ValueError` that `max([])` raises),
and whether the variant's `fetch_versions` was invoked. -/
structure CheckOut where
  comp : Component
  result : Option Bool
  fetcherInvoked : Bool
deriving DecidableEq, Repr

/-- `Component.check`, with the external fetcher's reply passed as
`fetched`.  The non-frozen branch stores `fetched` in `version_tags`
before taking the maximum, so a `ValueError` leaves that mutation
behind, exactly as in the source. -/
def check (c : Component) (fetched : List String) : CheckOut :=
  if LATEST_TAGS.contains c.current_version_tag then
    { comp := c, result := some (newer_version_exists c), fetcherInvoked := false }
  else
    let c1 : Component := { c with version_tags := fetched }
    match pyMax ((admitted c fetched).map parse) with
    | none => { comp := c1, result := none, fetcherInvoked := true }
    | some m =>
        let c2 : Component :=
          { c1 with next_version := m
                    next_version_tag := (c.pre.getD "") ++ pvStr m }
        { comp := c2, result := some (newer_version_exists c2), fetcherInvoked := true }

/-! ### Rendered tags and text substitution -/

/-- `name_version_tag`, dispatched on the variant: `name:tag` for a
container image, `name==version` for a PyPI package. -/
def name_version_tag (c : Component) (version_tag : String) : String :=
  match c.component_type with
  | .dockerImage => c.component_name ++ ":" ++ version_tag
  | .pypi => c.component_name ++ "==" ++ version_tag

def isPrefixL : List Char → List Char → Bool
  | [], _ => true
  | _ :: _, [] => false
  | a :: as, b :: bs => a == b && isPrefixL as bs

/-- Count non-overlapping occurrences of a non-empty `sub`, scanning left
to right (Python `str.count` for non-empty needles).  The fuel argument
is a structural-recursion artifact: every call consumes at least one
character, so the fuel `pyCount` supplies is never exhausted. -/
def countSubGo (sub : List Char) : Nat → List Char → Nat
  | 0, _ => 0
  | _ + 1, [] => 0
  | fuel + 1, c :: cs =>
      if isPrefixL sub (c :: cs) && !sub.isEmpty then
        1 + countSubGo sub fuel (List.drop (sub.length - 1) cs)
      else countSubGo sub fuel cs

/-- Python `str.count` (an empty needle counts `len + 1`). -/
def pyCount (hay sub : String) : Nat :=
  if sub.data.isEmpty then hay.data.length + 1
  else countSubGo sub.data hay.data.length hay.data

/-- Replace non-overlapping occurrences of a non-empty `old`, scanning
left to right (Python `str.replace` for non-empty needles); fuelled like
`countSubGo`, with the fuel never exhausted at the bound `pyReplace`
supplies. -/
def replaceGo (old new : List Char) : Nat → List Char → List Char
  | 0, l => l
  | _ + 1, [] => []
  | fuel + 1, c :: cs =>
      if isPrefixL old (c :: cs) && !old.isEmpty then
        new ++ replaceGo old new fuel (List.drop (old.length - 1) cs)
      else c :: replaceGo old new fuel cs

/-- Python `str.replace` (an empty needle inserts `new` at every
position, `"abc".replace("", "X") = "XaXbXcX"`). -/
def pyReplace (hay old new : String) : String :=
  if old.data.isEmpty then
    ⟨new.data ++ hay.data.foldr (fun c acc => c :: (new.data ++ acc)) []⟩
  else ⟨replaceGo old.data new.data hay.data.length hay.data⟩

/-- `Component.count_occurence`. -/
def count_occurence (c : Component) (string_to_search : String) : Nat :=
  pyCount string_to_search (name_version_tag c c.current_version_tag)

/-- `Component.replace`. -/
def creplace (c : Component) (string_to_replace : String) : String :=
  pyReplace string_to_replace
    (name_version_tag c c.current_version_tag)
    (name_version_tag c c.next_version_tag)

/-! ### File updates

The filesystem is an association list from path to content; `alookup`
models reading (a missing path raising `FileNotFoundError`), `aupd`
models `write_text` (update in place or append). -/

abbrev Fs := List (String × String)

def alookup {α : Type} : List (String × α) → String → Option α
  | [], _ => none
  | (k, v) :: rest, key => if k = key then some v else alookup rest key

def aupd {α : Type} : List (String × α) → String → α → List (String × α)
  | [], key, v => [(key, v)]
  | (k, w) :: rest, key, v =>
      if k = key then (k, v) :: rest else (k, w) :: aupd rest key v

/-- `Path(base_dir) / file_name`. -/
def joinPath (base_dir file_name : String) : String :=
  base_dir ++ "/" ++ file_name

/-- The fatal outcomes of `Component.update_files`: iterating a `None`
files attribute (`TypeError`), a missing file, the too-many-occurrences
assertion, the no-replacement-done assertion. -/
inductive UpdErr where
  | typeError
  | readError
  | ambiguity
  | noop
deriving DecidableEq, Repr

/-- The loop body of `Component.update_files` over the remaining file
names, threading the filesystem and the counter. -/
def update_files_go (c : Component) (base_dir : String) (dry_run : Bool) :
    List String → Fs → Nat → Fs × Except UpdErr Nat
  | [], fs, n => (fs, Except.ok n)
  | f :: rest, fs, n =>
      match alookup fs (joinPath base_dir f) with
      | none => (fs, Except.error UpdErr.readError)
      | some orig_content =>
          if count_occurence c orig_content > 1 then
            (fs, Except.error UpdErr.ambiguity)
          else if dry_run then
            update_files_go c base_dir dry_run rest fs (n + 1)
          else
            let new_content := creplace c orig_content
            if new_content = orig_content then
              (fs, Except.error UpdErr.noop)
            else
              update_files_go c base_dir dry_run rest
                (aupd fs (joinPath base_dir f) new_content) (n + 1)

/-- `Component.update_files`. -/
def update_files (c : Component) (base_dir : String) (dry_run : Bool) (fs : Fs) :
    Fs × Except UpdErr Nat :=
  match c.files with
  | none => (fs, Except.error UpdErr.typeError)
  | some l => update_files_go c base_dir dry_run l fs 0

/-! ### The status journal -/

abbrev Journal := List (String × List (String × String))

/-- `Config.update_status`, with `maya.now()` passed in as `now`.  The
source initialises and indexes `self.status` with the literal string
`"component.component_name"`, not the component's name; indexing a
missing key models the `KeyError` as `none`. -/
def update_status (status : Journal) (component_name step now : String) :
    Option Journal :=
  let status1 :=
    if alookup status component_name = none then
      aupd status "component.component_name" []
    else status
  match alookup status1 "component.component_name" with
  | none => none
  | some comp => some (aupd status1 "component.component_name" (aupd comp step now))

/-! ### Persistence: `to_dict` and `read_from_yaml`'s reconstruction

The persisted YAML mapping for one component is modelled as a record of
optional fields, `none` meaning the key is absent.  (`to_dict` for a
docker image always emits `docker-repo`, possibly with value `None`;
since reloading reads it with `dict.get(..., None)`, a present-but-null
key is observationally the absent key and both are modelled as
`none`.) -/

structure CompDict where
  component_type : String
  current_version : String
  next_version : String
  pre : Option String
  filter : Option String
  files : Option (List String)
  exclude_versions : Option (List String)
  docker_repo : Option String
deriving DecidableEq, Repr

/-- `Component.to_dict` (with `DockerImageComponent.to_dict`'s extra
`docker-repo` entry): optional fields are emitted only when they differ
from the class defaults. -/
def to_dict (c : Component) : CompDict :=
  { component_type := ctypeStr c.component_type
    current_version := c.current_version_tag
    next_version := c.next_version_tag
    pre := c.pre
    filter := if c.filter = FILTER_DEFAULT then none else some c.filter
    files := c.files
    exclude_versions :=
      if c.exclude_versions = [] then none else some c.exclude_versions
    docker_repo :=
      match c.component_type with
      | .dockerImage => c.repo_name
      | .pypi => none }

/-- `ComponentFactory.get`: dispatch on the persisted type discriminator;
an unrecognized value raises `ValueError`. -/
def factory_get (component_type component_name current_version_tag : String)
    (repo_name : Option String) : Except String Component :=
  if component_type = "docker-image" then
    Except.ok (component_init CType.dockerImage component_name current_version_tag repo_name)
  else if component_type = "pypi" then
    Except.ok (component_init CType.pypi component_name current_version_tag none)
  else Except.error component_type

/-- The per-component body of `Config.read_from_yaml`: build the variant
through the factory, then overwrite the optional attributes with the
persisted values, falling back to the class defaults when absent. -/
def read_component (component_name : String) (d : CompDict) : Except String Component :=
  match factory_get d.component_type component_name d.current_version d.docker_repo with
  | Except.error e => Except.error e
  | Except.ok c0 =>
      Except.ok { c0 with
        repo_name := d.docker_repo
        pre := d.pre
        filter := d.filter.getD FILTER_DEFAULT
        files := d.files
        exclude_versions := d.exclude_versions.getD [] }

/-! ### Concrete components used to instantiate the theorems -/

/-- A PyPI component pinned at 1.2.0 tracking one target file. -/
def widgetComp : Component :=
  { component_init CType.pypi "widget" "1.2.0" none with
      files := some ["requirements.txt"] }

/-- A frozen component: its current version tag is the reserved "latest". -/
def frozenComp : Component := component_init CType.pypi "frozen" "latest" none

/-- A PyPI component pinned at 2.0 (so a fetch returning only 1.0 is a
list of entirely older candidates). -/
def staleComp : Component := component_init CType.pypi "stale" "2.0" none

/-- A PyPI component whose filter pattern is the search /2/. -/
def searchComp : Component :=
  { component_init CType.pypi "pkg" "1.0" none with filter := "/2/" }

/-- A PyPI component with 2.0 among its excluded versions. -/
def excludeComp : Component :=
  { component_init CType.pypi "pkg2" "1.0" none with
      exclude_versions := ["2.0"] }

/-- `widgetComp` after a check found 1.3.0, tracking one target file. -/
def oneFileComp : Component :=
  { component_init CType.pypi "widget" "1.2.0" none with
      next_version_tag := "1.3.0", files := some ["requirements.txt"] }

/-- `widgetComp` after a check found 1.3.0, tracking two target files. -/
def twoFileComp : Component :=
  { component_init CType.pypi "widget" "1.2.0" none with
      next_version_tag := "1.3.0", files := some ["a.txt", "b.txt"] }

/-- A docker-image component with every optional field non-default. -/
def dockerComp : Component :=
  { component_init CType.dockerImage "app" "1.2.0" (some "acme") with
      pre := some "v", filter := "/1\\..*/", files := some ["deploy.yaml"],
      exclude_versions := ["1.9.0"] }

/-! ### Order lemmas for the version comparator -/

theorem listLtNat_irrefl (a : List Nat) : listLtNat a a = false := by
  induction a with
  | nil => rfl
  | cons x xs ih => simp [listLtNat, ih]

theorem listLtNat_trans {a b c : List Nat} (h1 : listLtNat a b = true)
    (h2 : listLtNat b c = true) : listLtNat a c = true := by
  induction a generalizing b c with
  | nil => cases b <;> cases c <;> simp_all [listLtNat]
  | cons x xs ih =>
    cases b with
    | nil => simp [listLtNat] at h1
    | cons y ys =>
      cases c with
      | nil => simp [listLtNat] at h2
      | cons z zs =>
        simp only [listLtNat, Bool.or_eq_true, Bool.and_eq_true,
          decide_eq_true_eq] at h1 h2 ⊢
        rcases h1 with h1 | ⟨hxy, h1⟩
        · rcases h2 with h2 | ⟨hyz, h2⟩
          · exact Or.inl (Nat.lt_trans h1 h2)
          · exact Or.inl (hyz ▸ h1)
        · rcases h2 with h2 | ⟨hyz, h2⟩
          · exact Or.inl (hxy ▸ h2)
          · exact Or.inr ⟨hxy.trans hyz, ih h1 h2⟩

theorem pvLt_irrefl (a : PVersion) : pvLt a a = false := by
  cases a <;> simp [pvLt, listLtNat_irrefl]

theorem pvLt_trans {a b c : PVersion} (h1 : pvLt a b = true)
    (h2 : pvLt b c = true) : pvLt a c = true := by
  cases a with
  | legacy sa =>
    cases c with
    | release rc => cases b <;> rfl
    | legacy sc =>
      cases b with
      | legacy sb => exact listLtNat_trans h1 h2
      | release rb => simp [pvLt] at h2
  | release ra =>
    cases b with
    | legacy sb => simp [pvLt] at h1
    | release rb =>
      cases c with
      | legacy sc => simp [pvLt] at h2
      | release rc => exact listLtNat_trans h1 h2

/-! ### Properties of Python's `max` -/

theorem pyMaxFold_mem (xs : List PVersion) (b : PVersion) :
    xs.foldl (fun b y => if pvLt b y then y else b) b = b ∨
    xs.foldl (fun b y => if pvLt b y then y else b) b ∈ xs := by
  induction xs generalizing b with
  | nil => exact Or.inl rfl
  | cons y ys ih =>
    simp only [List.foldl_cons]
    rcases ih (if pvLt b y then y else b) with h | h
    · rw [h]
      by_cases hb : pvLt b y = true
      · simp only [hb, if_true]
        exact Or.inr (List.mem_cons_self y ys)
      · simp only [Bool.not_eq_true] at hb
        simp [hb]
    · exact Or.inr (List.mem_cons_of_mem _ h)

/-- `max` over a non-empty list returns an element of the list. -/
theorem pyMax_mem {l : List PVersion} {m : PVersion} (h : pyMax l = some m) :
    m ∈ l := by
  cases l with
  | nil => cases h
  | cons x xs =>
    simp only [pyMax, Option.some.injEq] at h
    subst h
    rcases pyMaxFold_mem xs x with h | h
    · rw [h]; exact List.mem_cons_self x xs
    · exact List.mem_cons_of_mem _ h

theorem pyMaxFold_not_lt (xs : List PVersion) (b v : PVersion)
    (h : pvLt b v = false ∨ v ∈ xs) :
    pvLt (xs.foldl (fun b y => if pvLt b y then y else b) b) v = false := by
  induction xs generalizing b with
  | nil =>
    rcases h with h | h
    · exact h
    · exact absurd h (List.not_mem_nil v)
  | cons y ys ih =>
    simp only [List.foldl_cons]
    apply ih
    rcases h with h | h
    · left
      by_cases hb : pvLt b y = true
      · simp only [hb, if_true]
        cases hyv : pvLt y v with
        | false => rfl
        | true => exact absurd (pvLt_trans hb hyv) (by simp [h])
      · simp only [Bool.not_eq_true] at hb
        simp only [hb, Bool.false_eq_true, if_false]
        exact h
    · rcases List.mem_cons.mp h with rfl | hm
      · left
        by_cases hb : pvLt b v = true
        · simp only [hb, if_true]
          exact pvLt_irrefl v
        · simp only [Bool.not_eq_true] at hb
          simp only [hb, Bool.false_eq_true, if_false]
      · right; exact hm

/-- No element of the list is strictly above the `max`. -/
theorem pyMax_not_lt {l : List PVersion} {m v : PVersion} (hm : pyMax l = some m)
    (hv : v ∈ l) : pvLt m v = false := by
  cases l with
  | nil => cases hm
  | cons x xs =>
    simp only [pyMax, Option.some.injEq] at hm
    subst hm
    rcases List.mem_cons.mp hv with rfl | h
    · exact pyMaxFold_not_lt xs v v (Or.inl (pvLt_irrefl v))
    · exact pyMaxFold_not_lt xs x v (Or.inr h)

/-! ### Shape lemmas for `check` -/

theorem check_frozen_eq (c : Component) (fetched : List String)
    (h : LATEST_TAGS.contains c.current_version_tag = true) :
    check c fetched
      = { comp := c, result := some false, fetcherInvoked := false } := by
  have h' : c.current_version_tag ∈ LATEST_TAGS := by simpa using h
  unfold check newer_version_exists
  simp [h, h']

theorem check_nonfrozen_none (c : Component) (fetched : List String)
    (h : LATEST_TAGS.contains c.current_version_tag = false)
    (hmax : pyMax ((admitted c fetched).map parse) = none) :
    check c fetched
      = { comp := { c with version_tags := fetched }, result := none,
          fetcherInvoked := true } := by
  have h' : c.current_version_tag ∉ LATEST_TAGS := by simpa using h
  unfold check
  simp [h, h', hmax]

theorem check_nonfrozen_some (c : Component) (fetched : List String)
    (h : LATEST_TAGS.contains c.current_version_tag = false)
    (m : PVersion) (hmax : pyMax ((admitted c fetched).map parse) = some m) :
    check c fetched
      = { comp :=
            { c with
                version_tags := fetched
                next_version := m
                next_version_tag := (c.pre.getD "") ++ pvStr m }
          result := some (pvLt c.current_version m)
          fetcherInvoked := true } := by
  have h' : c.current_version_tag ∉ LATEST_TAGS := by simpa using h
  unfold check newer_version_exists
  simp [h, h', hmax]

/-! ### Filesystem and `update_files` loop lemmas -/

theorem alookup_aupd {α : Type} (fs : List (String × α)) (k k' : String) (v : α) :
    alookup (aupd fs k v) k' = if k = k' then some v else alookup fs k' := by
  induction fs with
  | nil =>
    simp only [aupd, alookup]
  | cons p rest ih =>
    obtain ⟨pk, pv⟩ := p
    by_cases hpk : pk = k
    · subst hpk
      by_cases h : pk = k' <;> simp [aupd, alookup, h]
    · by_cases h : pk = k'
      · subst h
        have hk : ¬(k = pk) := fun hk => hpk hk.symm
        simp [aupd, alookup, hpk, hk]
      · simp [aupd, alookup, hpk, h, ih]

/-- In dry-run mode the loop never writes and, when it completes, counts
one per processed file. -/
theorem update_files_go_dry (c : Component) (b : String) (l : List String) :
    ∀ fs n, (update_files_go c b true l fs n).1 = fs ∧
      (∀ m, (update_files_go c b true l fs n).2 = Except.ok m → m = n + l.length) := by
  induction l with
  | nil =>
    intro fs n
    refine ⟨rfl, fun m hm => ?_⟩
    simp only [update_files_go, Except.ok.injEq] at hm
    simp only [List.length_nil, Nat.add_zero]
    omega
  | cons f rest ih =>
    intro fs n
    cases halk : alookup fs (joinPath b f) with
    | none =>
      refine ⟨?_, fun m hm => ?_⟩ <;> simp [update_files_go, halk] at *
    | some orig =>
      by_cases hcnt : count_occurence c orig > 1
      · refine ⟨?_, fun m hm => ?_⟩ <;> simp [update_files_go, halk, hcnt] at *
      · have heq : update_files_go c b true (f :: rest) fs n
            = update_files_go c b true rest fs (n + 1) := by
          simp [update_files_go, halk, hcnt]
        rw [heq]
        refine ⟨(ih fs (n + 1)).1, fun m hm => ?_⟩
        have := (ih fs (n + 1)).2 m hm
        simp only [List.length_cons]
        omega

/-- The loop never touches a path that is not the join of one of the
remaining file names. -/
theorem update_files_go_frame (c : Component) (b : String) (dry : Bool)
    (l : List String) :
    ∀ fs n (q : String), (∀ f ∈ l, joinPath b f ≠ q) →
      alookup (update_files_go c b dry l fs n).1 q = alookup fs q := by
  induction l with
  | nil => intro fs n q _; rfl
  | cons f rest ih =>
    intro fs n q hq
    have hfq : joinPath b f ≠ q := hq f (List.mem_cons_self f rest)
    have hrest : ∀ g ∈ rest, joinPath b g ≠ q :=
      fun g hg => hq g (List.mem_cons_of_mem f hg)
    cases halk : alookup fs (joinPath b f) with
    | none => simp [update_files_go, halk]
    | some orig =>
      by_cases hcnt : count_occurence c orig > 1
      · simp [update_files_go, halk, hcnt]
      · cases dry with
        | true =>
          have heq : update_files_go c b true (f :: rest) fs n
              = update_files_go c b true rest fs (n + 1) := by
            simp [update_files_go, halk, hcnt]
          rw [heq]; exact ih fs (n + 1) q hrest
        | false =>
          by_cases hnoop : creplace c orig = orig
          · simp [update_files_go, halk, hcnt, hnoop]
          · have heq : update_files_go c b false (f :: rest) fs n
                = update_files_go c b false rest
                    (aupd fs (joinPath b f) (creplace c orig)) (n + 1) := by
              simp [update_files_go, halk, hcnt, hnoop]
            rw [heq, ih _ (n + 1) q hrest, alookup_aupd, if_neg hfq]

/-- If some remaining file name joins to a path whose current content has
more than one occurrence of the rendered current tag, the loop fails (in
either mode) and never writes that path. -/
theorem update_files_go_fail (c : Component) (b : String) (dry : Bool)
    (l : List String) (q content : String)
    (hcnt : count_occurence c content > 1) :
    ∀ fs n, (∃ f ∈ l, joinPath b f = q) → alookup fs q = some content →
      (∃ e, (update_files_go c b dry l fs n).2 = Except.error e) ∧
      alookup (update_files_go c b dry l fs n).1 q = some content := by
  induction l with
  | nil =>
    intro fs n hmem _
    rcases hmem with ⟨f, hf, _⟩
    exact absurd hf (List.not_mem_nil f)
  | cons f rest ih =>
    intro fs n hmem hread
    cases halk : alookup fs (joinPath b f) with
    | none =>
      refine ⟨⟨UpdErr.readError, ?_⟩, ?_⟩ <;> simp [update_files_go, halk, hread]
    | some orig =>
      by_cases hfq : joinPath b f = q
      · rw [hfq, hread] at halk
        cases halk
        refine ⟨⟨UpdErr.ambiguity, ?_⟩, ?_⟩ <;>
          simp [update_files_go, hfq, hread, hcnt]
      · have hmem' : ∃ g ∈ rest, joinPath b g = q := by
          rcases hmem with ⟨g, hg, hgq⟩
          rcases List.mem_cons.mp hg with rfl | hg'
          · exact absurd hgq hfq
          · exact ⟨g, hg', hgq⟩
        by_cases hc : count_occurence c orig > 1
        · refine ⟨⟨UpdErr.ambiguity, ?_⟩, ?_⟩ <;>
            simp [update_files_go, halk, hc, hread]
        · cases dry with
          | true =>
            have heq : update_files_go c b true (f :: rest) fs n
                = update_files_go c b true rest fs (n + 1) := by
              simp [update_files_go, halk, hc]
            rw [heq]
            exact ih fs (n + 1) hmem' hread
          | false =>
            by_cases hnoop : creplace c orig = orig
            · refine ⟨⟨UpdErr.noop, ?_⟩, ?_⟩ <;>
                simp [update_files_go, halk, hc, hnoop, hread]
            · have heq : update_files_go c b false (f :: rest) fs n
                  = update_files_go c b false rest
                      (aupd fs (joinPath b f) (creplace c orig)) (n + 1) := by
                simp [update_files_go, halk, hc, hnoop]
              rw [heq]
              refine ih _ (n + 1) hmem' ?_
              rw [alookup_aupd, if_neg hfq]
              exact hread

/-- In real mode, if some remaining file name joins to a path whose
current content the replacement leaves unchanged, the loop fails and
never writes that path. -/
theorem update_files_go_noop (c : Component) (b : String)
    (l : List String) (q content : String)
    (hrep : creplace c content = content) :
    ∀ fs n, (∃ f ∈ l, joinPath b f = q) → alookup fs q = some content →
      (∃ e, (update_files_go c b false l fs n).2 = Except.error e) ∧
      alookup (update_files_go c b false l fs n).1 q = some content := by
  induction l with
  | nil =>
    intro fs n hmem _
    rcases hmem with ⟨f, hf, _⟩
    exact absurd hf (List.not_mem_nil f)
  | cons f rest ih =>
    intro fs n hmem hread
    cases halk : alookup fs (joinPath b f) with
    | none =>
      refine ⟨⟨UpdErr.readError, ?_⟩, ?_⟩ <;> simp [update_files_go, halk, hread]
    | some orig =>
      by_cases hfq : joinPath b f = q
      · rw [hfq, hread] at halk
        cases halk
        by_cases hc : count_occurence c content > 1
        · refine ⟨⟨UpdErr.ambiguity, ?_⟩, ?_⟩ <;>
            simp [update_files_go, hfq, hread, hc]
        · refine ⟨⟨UpdErr.noop, ?_⟩, ?_⟩ <;>
            simp [update_files_go, hfq, hread, hc, hrep]
      · have hmem' : ∃ g ∈ rest, joinPath b g = q := by
          rcases hmem with ⟨g, hg, hgq⟩
          rcases List.mem_cons.mp hg with rfl | hg'
          · exact absurd hgq hfq
          · exact ⟨g, hg', hgq⟩
        by_cases hc : count_occurence c orig > 1
        · refine ⟨⟨UpdErr.ambiguity, ?_⟩, ?_⟩ <;>
            simp [update_files_go, halk, hc, hread]
        · by_cases hnoop : creplace c orig = orig
          · refine ⟨⟨UpdErr.noop, ?_⟩, ?_⟩ <;>
              simp [update_files_go, halk, hc, hnoop, hread]
          · have heq : update_files_go c b false (f :: rest) fs n
                = update_files_go c b false rest
                    (aupd fs (joinPath b f) (creplace c orig)) (n + 1) := by
              simp [update_files_go, halk, hc, hnoop]
            rw [heq]
            refine ih _ (n + 1) hmem' ?_
            rw [alookup_aupd, if_neg hfq]
            exact hread

/-- In real mode, a completed run (no distinct file names joining to the
same path) has written each file's replaced content. -/
theorem update_files_go_ok (c : Component) (b : String) (l : List String) :
    ∀ fs n m, (l.map (joinPath b)).Nodup →
      (update_files_go c b false l fs n).2 = Except.ok m →
      ∀ f ∈ l, ∀ orig, alookup fs (joinPath b f) = some orig →
        alookup (update_files_go c b false l fs n).1 (joinPath b f)
          = some (creplace c orig) := by
  induction l with
  | nil =>
    intro fs n m _ _ f hf
    exact absurd hf (List.not_mem_nil f)
  | cons f0 rest ih =>
    intro fs n m hnd hok f hf orig hread
    cases halk : alookup fs (joinPath b f0) with
    | none => simp [update_files_go, halk] at hok
    | some orig0 =>
      by_cases hc : count_occurence c orig0 > 1
      · simp [update_files_go, halk, hc] at hok
      · by_cases hnoop : creplace c orig0 = orig0
        · simp [update_files_go, halk, hc, hnoop] at hok
        · have heq : update_files_go c b false (f0 :: rest) fs n
              = update_files_go c b false rest
                  (aupd fs (joinPath b f0) (creplace c orig0)) (n + 1) := by
            simp [update_files_go, halk, hc, hnoop]
          rw [heq]
          rw [heq] at hok
          have hnd2 : joinPath b f0 ∉ rest.map (joinPath b) ∧
              (rest.map (joinPath b)).Nodup := by
            rw [List.map_cons] at hnd
            exact List.nodup_cons.mp hnd
          have hnotin := hnd2.1
          have hndrest := hnd2.2
          rcases List.mem_cons.mp hf with rfl | hf'
          · rw [hread] at halk
            cases halk
            rw [update_files_go_frame c b false rest _ (n + 1) (joinPath b f)
                (fun g hg hgq => hnotin (hgq ▸ List.mem_map_of_mem (joinPath b) hg))]
            rw [alookup_aupd, if_pos rfl]
          · have hne : joinPath b f0 ≠ joinPath b f := by
              intro hcontra
              exact hnotin (hcontra ▸ List.mem_map_of_mem (joinPath b) hf')
            refine ih _ (n + 1) m hndrest hok f hf' orig ?_
            rw [alookup_aupd, if_neg hne]
            exact hread

/-! ### The claims -/

/-- Claim C1: for a component whose current version tag is one of the
reserved frozen tags (`LATEST_TAGS`, i.e. "latest"), check() returns
false, leaves the component unchanged, and never invokes the variant's
version fetcher, regardless of what candidates the fetcher would
return. -/
theorem check_frozen_no_fetch (c : Component) (fetched : List String)
    (h : LATEST_TAGS.contains c.current_version_tag = true) :
    check c fetched
      = { comp := c, result := some false, fetcherInvoked := false } :=
  check_frozen_eq c fetched h

/-- Witness for C1: the frozen component, with candidates the fetcher
would have returned. -/
theorem check_frozen_no_fetch_witness :
    LATEST_TAGS.contains frozenComp.current_version_tag = true ∧
    check frozenComp ["9.9", "latest"]
      = { comp := frozenComp, result := some false, fetcherInvoked := false } :=
  ⟨rfl, check_frozen_no_fetch frozenComp ["9.9", "latest"] rfl⟩

/-- Claim C2 counterexample: a non-frozen component pinned at 2.0 whose
fetcher returns only the admitted candidate 1.0 completes check() without
error, yet next_version < current_version afterwards -- the claimed
invariant next_version ≥ current_version fails. -/
theorem check_next_below_current :
    LATEST_TAGS.contains staleComp.current_version_tag = false ∧
    (check staleComp ["1.0"]).result = some false ∧
    pvLt (check staleComp ["1.0"]).comp.next_version
      (check staleComp ["1.0"]).comp.current_version = true :=
  ⟨rfl, rfl, rfl⟩

/-- Claim C2 (amended): after check(), a frozen component always yields
false; a non-frozen component's error-free check() returns exactly
whether next_version > current_version, and next_version ≥
current_version is guaranteed whenever some admitted candidate parses to
the current version (the source takes a bare maximum of the admitted
candidates, so a fetch of only older candidates drops next_version below
current_version). -/
theorem check_result_spec (c : Component) (fetched : List String) :
    (LATEST_TAGS.contains c.current_version_tag = true →
      (check c fetched).result = some false) ∧
    (LATEST_TAGS.contains c.current_version_tag = false →
      ∀ bo, (check c fetched).result = some bo →
        (bo = pvLt (check c fetched).comp.current_version
            (check c fetched).comp.next_version) ∧
        (∀ t ∈ admitted c fetched, parse t = c.current_version →
          pvLt (check c fetched).comp.next_version
            (check c fetched).comp.current_version = false)) := by
  constructor
  · intro h
    rw [check_frozen_eq c fetched h]
  · intro h bo hbo
    cases hmax : pyMax ((admitted c fetched).map parse) with
    | none =>
      rw [check_nonfrozen_none c fetched h hmax] at hbo
      cases hbo
    | some m =>
      rw [check_nonfrozen_some c fetched h m hmax] at hbo
      constructor
      · rw [check_nonfrozen_some c fetched h m hmax]
        simpa using hbo.symm
      · intro t ht hpt
        rw [check_nonfrozen_some c fetched h m hmax]
        have hnl := pyMax_not_lt hmax (List.mem_map_of_mem parse ht)
        rw [hpt] at hnl
        simpa using hnl

/-- Witness for C2 at the scenario component: fetch of 1.2.0, 1.3.0,
1.2.1 with the current version among the candidates. -/
theorem check_result_spec_witness :
    LATEST_TAGS.contains widgetComp.current_version_tag = false ∧
    (check widgetComp ["1.2.0", "1.3.0", "1.2.1"]).result = some true ∧
    pvLt (check widgetComp ["1.2.0", "1.3.0", "1.2.1"]).comp.next_version
      (check widgetComp ["1.2.0", "1.3.0", "1.2.1"]).comp.current_version
      = false :=
  ⟨rfl, rfl,
    ((check_result_spec widgetComp ["1.2.0", "1.3.0", "1.2.1"]).2 rfl
        true rfl).2 "1.2.0"
      (by exact List.mem_cons_self "1.2.0" ["1.3.0", "1.2.1"]) rfl⟩

/-- Claim C3 counterexample: with filter pattern /2/ the fetched tag 2.5
does not satisfy the pattern as a full match and is not excluded, yet
check() selects it as the basis of next_version and next_version_tag:
the rex admission is a substring search, not a full match. -/
theorem check_selects_non_full_match :
    specFullMatch searchComp.filter "2.5" = false ∧
    searchComp.exclude_versions.contains "2.5" = false ∧
    (check searchComp ["2.5"]).comp.next_version = parse "2.5" ∧
    (check searchComp ["2.5"]).comp.next_version_tag = "2.5" ∧
    (check searchComp ["2.5"]).result = some true :=
  ⟨rfl, rfl, rfl, rfl, rfl⟩

/-- Claim C3 (amended): admission is by regex search rather than full
match: an error-free check() of a non-frozen component derives
next_version and next_version_tag from some fetched tag on which the
filter pattern's search succeeds and that is not in exclude_versions;
hence a tag failing the search, or a member of exclude_versions, is never
the basis of the selection. -/
theorem check_admission_basis (c : Component) (fetched : List String)
    (h : LATEST_TAGS.contains c.current_version_tag = false)
    (bo : Bool) (hbo : (check c fetched).result = some bo) :
    ∃ t ∈ fetched, rexMatches c.filter t = true ∧
      t ∉ c.exclude_versions ∧
      (check c fetched).comp.next_version = parse t ∧
      (check c fetched).comp.next_version_tag
        = (c.pre.getD "") ++ pvStr (parse t) := by
  cases hmax : pyMax ((admitted c fetched).map parse) with
  | none =>
    rw [check_nonfrozen_none c fetched h hmax] at hbo
    cases hbo
  | some m =>
    rcases List.mem_map.mp (pyMax_mem hmax) with ⟨t, ht, hpt⟩
    have ht2 : t ∈ fetched ∧ rexMatches c.filter t = true ∧
        t ∉ c.exclude_versions := by
      simpa [admitted, List.mem_filter] using ht
    refine ⟨t, ht2.1, ht2.2.1, ht2.2.2, ?_, ?_⟩
    · rw [check_nonfrozen_some c fetched h m hmax]
      simpa using hpt.symm
    · rw [check_nonfrozen_some c fetched h m hmax, hpt]

/-- Witness for C3's amended theorem at the component filtering with the
search pattern for the character 2. -/
theorem check_admission_basis_witness :
    LATEST_TAGS.contains searchComp.current_version_tag = false ∧
    (check searchComp ["2.5"]).result = some true ∧
    ∃ t ∈ ["2.5"], rexMatches searchComp.filter t = true ∧
      t ∉ searchComp.exclude_versions ∧
      (check searchComp ["2.5"]).comp.next_version = parse t ∧
      (check searchComp ["2.5"]).comp.next_version_tag
        = (searchComp.pre.getD "") ++ pvStr (parse t) :=
  ⟨rfl, rfl, check_admission_basis searchComp ["2.5"] rfl true rfl⟩

/-- Claim C4: for a non-frozen component, if the filter pattern and the
exclusion set leave no surviving candidate, check() raises (the `max` of
an empty list raises ValueError, modelled as result `none`) instead of
returning normally with the old next_version kept. -/
theorem check_empty_admitted_raises (c : Component) (fetched : List String)
    (h : LATEST_TAGS.contains c.current_version_tag = false)
    (hemp : admitted c fetched = []) :
    (check c fetched).result = none := by
  have hmax : pyMax ((admitted c fetched).map parse) = none := by
    rw [hemp]; rfl
  rw [check_nonfrozen_none c fetched h hmax]

/-- Witness for C4: every fetched candidate is excluded. -/
theorem check_empty_admitted_raises_witness :
    LATEST_TAGS.contains excludeComp.current_version_tag = false ∧
    admitted excludeComp ["2.0"] = [] ∧
    (check excludeComp ["2.0"]).result = none :=
  ⟨rfl, rfl, check_empty_admitted_raises excludeComp ["2.0"] rfl rfl⟩

/-- Claim C10: check() never mutates current_version or
current_version_tag, and beyond version_tags, next_version and
next_version_tag every other field (name, variant, prefix, filter, files,
exclusions, repository) is also untouched -- whether the call returns or
raises, frozen or not. -/
theorem check_preserves_current (c : Component) (fetched : List String) :
    (check c fetched).comp.current_version_tag = c.current_version_tag ∧
    (check c fetched).comp.current_version = c.current_version ∧
    (check c fetched).comp.component_name = c.component_name ∧
    (check c fetched).comp.component_type = c.component_type ∧
    (check c fetched).comp.pre = c.pre ∧
    (check c fetched).comp.filter = c.filter ∧
    (check c fetched).comp.files = c.files ∧
    (check c fetched).comp.exclude_versions = c.exclude_versions ∧
    (check c fetched).comp.repo_name = c.repo_name := by
  cases h : LATEST_TAGS.contains c.current_version_tag with
  | true =>
    rw [check_frozen_eq c fetched h]
    exact ⟨rfl, rfl, rfl, rfl, rfl, rfl, rfl, rfl, rfl⟩
  | false =>
    cases hmax : pyMax ((admitted c fetched).map parse) with
    | none =>
      rw [check_nonfrozen_none c fetched h hmax]
      exact ⟨rfl, rfl, rfl, rfl, rfl, rfl, rfl, rfl, rfl⟩
    | some m =>
      rw [check_nonfrozen_some c fetched h m hmax]
      exact ⟨rfl, rfl, rfl, rfl, rfl, rfl, rfl, rfl, rfl⟩

/-- Claim C5 counterexample: in real mode with files [a.txt, b.txt], the
run fails on a.txt's no-op replacement before ever reaching b.txt, whose
content holds the rendered current tag twice; so the failure is not the
ambiguity error the claim names (though the run does fail and b.txt is
untouched). -/
theorem update_files_ambiguity_not_first :
    twoFileComp.files = some ["a.txt", "b.txt"] ∧
    count_occurence twoFileComp "widget==1.2.0 widget==1.2.0" = 2 ∧
    (update_files twoFileComp "base" false
        [("base/a.txt", "x"), ("base/b.txt", "widget==1.2.0 widget==1.2.0")]).2
      = Except.error UpdErr.noop :=
  ⟨rfl, rfl, rfl⟩

/-- Claim C5 (amended): whenever some target file's content holds the
rendered current tag more than once, update_files fails fatally -- with
the ambiguity error unless a file listed before it fails its own
validation first -- and that file's content is never written; this holds
in both dry-run and real mode. -/
theorem update_files_ambiguous_file_safe (c : Component) (base_dir : String)
    (dry_run : Bool) (fs : Fs) (l : List String) (hf : c.files = some l)
    (p : String) (hp : p ∈ l) (content : String)
    (hread : alookup fs (joinPath base_dir p) = some content)
    (hcnt : count_occurence c content > 1) :
    (∃ e, (update_files c base_dir dry_run fs).2 = Except.error e) ∧
    alookup (update_files c base_dir dry_run fs).1 (joinPath base_dir p)
      = some content := by
  simp only [update_files, hf]
  exact update_files_go_fail c base_dir dry_run l (joinPath base_dir p) content
    hcnt fs 0 ⟨p, hp, rfl⟩ hread

/-- Witness for C5 in dry-run mode at a file holding the rendered tag
twice. -/
theorem update_files_ambiguous_file_safe_witness :
    (∃ e, (update_files twoFileComp "base" true
        [("base/b.txt", "widget==1.2.0 widget==1.2.0")]).2 = Except.error e) ∧
    alookup (update_files twoFileComp "base" true
        [("base/b.txt", "widget==1.2.0 widget==1.2.0")]).1
        (joinPath "base" "b.txt")
      = some "widget==1.2.0 widget==1.2.0" :=
  update_files_ambiguous_file_safe twoFileComp "base" true
    [("base/b.txt", "widget==1.2.0 widget==1.2.0")] ["a.txt", "b.txt"] rfl
    "b.txt" (by exact List.mem_cons_of_mem "a.txt" (List.mem_cons_self "b.txt" []))
    "widget==1.2.0 widget==1.2.0" rfl (by decide)

/-- Claim C6: in real mode update_files fails fatally and never writes a
target file whose replacement result equals its original content; and a
run that returns normally (target paths being distinct) has written every
target file's replaced content back. -/
theorem update_files_noop_and_write (c : Component) (base_dir : String)
    (fs : Fs) (l : List String) (hf : c.files = some l) :
    (∀ p ∈ l, ∀ content, alookup fs (joinPath base_dir p) = some content →
      creplace c content = content →
      (∃ e, (update_files c base_dir false fs).2 = Except.error e) ∧
      alookup (update_files c base_dir false fs).1 (joinPath base_dir p)
        = some content) ∧
    ((l.map (joinPath base_dir)).Nodup →
      ∀ m, (update_files c base_dir false fs).2 = Except.ok m →
      ∀ p ∈ l, ∀ content, alookup fs (joinPath base_dir p) = some content →
        alookup (update_files c base_dir false fs).1 (joinPath base_dir p)
          = some (creplace c content)) := by
  constructor
  · intro p hp content hread hrep
    simp only [update_files, hf]
    exact update_files_go_noop c base_dir l (joinPath base_dir p) content hrep
      fs 0 ⟨p, hp, rfl⟩ hread
  · intro hnd m hok p hp content hread
    simp only [update_files, hf] at hok ⊢
    exact update_files_go_ok c base_dir l fs 0 m hnd hok p hp content hread

/-- Witness for C6's write side: one file holding exactly one occurrence
gets its replaced content written back. -/
theorem update_files_noop_and_write_witness :
    creplace oneFileComp "pin widget==1.2.0 here" = "pin widget==1.3.0 here" ∧
    alookup (update_files oneFileComp "base" false
        [("base/requirements.txt", "pin widget==1.2.0 here")]).1
        (joinPath "base" "requirements.txt")
      = some (creplace oneFileComp "pin widget==1.2.0 here") :=
  ⟨rfl,
    (update_files_noop_and_write oneFileComp "base"
        [("base/requirements.txt", "pin widget==1.2.0 here")]
        ["requirements.txt"] rfl).2 (by simp [joinPath]) 1 rfl
      "requirements.txt" (by exact List.mem_cons_self "requirements.txt" [])
      "pin widget==1.2.0 here" rfl⟩

/-- Claim C7 counterexample: a target file without the rendered current
tag fails the no-op-replacement validation fatally in a real run, but the
same input passes a dry run with count 1 -- the source performs that
validation only under `if not dry_run`, so dry-run does not perform the
same validations as a real run. -/
theorem dry_run_skips_noop_check :
    (update_files oneFileComp "base" false
        [("base/requirements.txt", "nothing")]).2 = Except.error UpdErr.noop ∧
    (update_files oneFileComp "base" true
        [("base/requirements.txt", "nothing")]).2 = Except.ok 1 :=
  ⟨rfl, rfl⟩

/-- Claim C7 (amended): dry-run never mutates the filesystem (so repeated
dry runs return the same result), counts one per path in files when it
returns normally, and still performs the read and the ambiguity
validations; but unlike the claim, the no-op-replacement validation is
skipped in dry-run (it runs only in real mode). -/
theorem update_files_dry_run_spec (c : Component) (base_dir : String)
    (fs : Fs) (l : List String) (hf : c.files = some l) :
    (update_files c base_dir true fs).1 = fs ∧
    (∀ m, (update_files c base_dir true fs).2 = Except.ok m → m = l.length) ∧
    update_files c base_dir true ((update_files c base_dir true fs).1)
      = update_files c base_dir true fs ∧
    (∀ p ∈ l, ∀ content, alookup fs (joinPath base_dir p) = some content →
      count_occurence c content > 1 →
      ∃ e, (update_files c base_dir true fs).2 = Except.error e) := by
  have hfs : (update_files c base_dir true fs).1 = fs := by
    simp only [update_files, hf]
    exact (update_files_go_dry c base_dir l fs 0).1
  refine ⟨hfs, ?_, ?_, ?_⟩
  · intro m hm
    simp only [update_files, hf] at hm
    have := (update_files_go_dry c base_dir l fs 0).2 m hm
    omega
  · rw [hfs]
  · intro p hp content hread hcnt
    simp only [update_files, hf]
    exact (update_files_go_fail c base_dir true l (joinPath base_dir p) content
      hcnt fs 0 ⟨p, hp, rfl⟩ hread).1

/-- Witness for C7's amended theorem: a dry run leaves the filesystem
unchanged. -/
theorem update_files_dry_run_spec_witness :
    (update_files oneFileComp "base" true
        [("base/requirements.txt", "pin widget==1.2.0 here")]).1
      = [("base/requirements.txt", "pin widget==1.2.0 here")] :=
  (update_files_dry_run_spec oneFileComp "base"
      [("base/requirements.txt", "pin widget==1.2.0 here")]
      ["requirements.txt"] rfl).1

/-- Claim C8 (code bug): update_status keys the journal with the literal
string "component.component_name" instead of the component's name: from
an empty journal the widget component's entry lands under that literal
key, nothing lands under "widget", and when the journal already holds an
entry under the component's real name the read of the literal key raises
KeyError (modelled as `none`). -/
theorem update_status_uses_literal_key :
    update_status [] "widget" "STATE_FILES_UPDATED" "t0"
      = some [("component.component_name", [("STATE_FILES_UPDATED", "t0")])] ∧
    alookup [("component.component_name",
        [("STATE_FILES_UPDATED", "t0")])] "widget" = none ∧
    update_status [("widget", [("STATE_TEST_RUN", "t1")])] "widget"
        "STATE_FILES_UPDATED" "t0" = none :=
  ⟨rfl, rfl, rfl⟩

/-- Claim C9: persisting a component through to_dict and reconstructing
it the way read_from_yaml does yields a component with identical name,
variant, current_version_tag, prefix, filter, files and excluded
versions, and (for the docker-image variant) identical repository;
absent optional fields round-trip through the variant defaults. -/
theorem component_roundtrip (c : Component) :
    ∃ c', read_component c.component_name (to_dict c) = Except.ok c' ∧
      c'.component_name = c.component_name ∧
      c'.component_type = c.component_type ∧
      c'.current_version_tag = c.current_version_tag ∧
      c'.pre = c.pre ∧
      c'.filter = c.filter ∧
      c'.files = c.files ∧
      c'.exclude_versions = c.exclude_versions ∧
      (c.component_type = CType.dockerImage → c'.repo_name = c.repo_name) := by
  have hfil : ∀ f : String,
      (if f = FILTER_DEFAULT then (none : Option String)
        else some f).getD FILTER_DEFAULT = f := by
    intro f
    by_cases h : f = FILTER_DEFAULT <;> simp [h]
  have hexc : ∀ e : List String,
      (if e = ([] : List String) then (none : Option (List String))
        else some e).getD [] = e := by
    intro e
    by_cases h : e = [] <;> simp [h]
  obtain ⟨ct, name, cvt, cv, vt, nv, nvt, pr, fil, fls, exc, rn⟩ := c
  cases ct with
  | dockerImage =>
    exact ⟨_, rfl, rfl, rfl, rfl, rfl, hfil fil, rfl, hexc exc, fun _ => rfl⟩
  | pypi =>
    exact ⟨_, rfl, rfl, rfl, rfl, rfl, hfil fil, rfl, hexc exc,
      fun h => by cases h⟩

/-- Witness for C9 at a docker-image component with every optional field
non-default. -/
theorem component_roundtrip_witness :
    ∃ c', read_component dockerComp.component_name (to_dict dockerComp)
        = Except.ok c' ∧
      c'.component_name = dockerComp.component_name ∧
      c'.component_type = dockerComp.component_type ∧
      c'.current_version_tag = dockerComp.current_version_tag ∧
      c'.pre = dockerComp.pre ∧
      c'.filter = dockerComp.filter ∧
      c'.files = dockerComp.files ∧
      c'.exclude_versions = dockerComp.exclude_versions ∧
      (dockerComp.component_type = CType.dockerImage →
        c'.repo_name = dockerComp.repo_name) :=
  component_roundtrip dockerComp

end Updater
